import Mathlib

/-
Verification development for the vault-operator repository.

Embedded code:
- pkg/vault/storage/etcd/etcd.go : the etcd storage backend options
  (Options.Apply, Options.GetStorageConfig) together with the slice of the
  Kubernetes core/v1 pod-template data model those functions touch;
- the GCPRole controller file (reconcileGCPRole, runGCPRoleFinalizer,
  removeGCPRoleFinalizer) with its external collaborators (vault adapter,
  resource store, finalizer registry) modelled as explicit inputs recording
  the outcome of each call.
-/

namespace VaultOperator

/- ### Text devices

`String.splitOn` does not reduce in the kernel, so line structure of the
generated configuration text is computed by explicit recursion on the
character data.  `lineList` uses the usual convention that a trailing
newline terminates the last line rather than opening an empty one. -/

/-- Split a character list at newline characters into its segments. -/
def lineSplit : List Char → List (List Char)
  | [] => [[]]
  | c :: cs =>
    if c = '\n' then [] :: lineSplit cs
    else
      match lineSplit cs with
      | [] => [[c]]
      | l :: ls => (c :: l) :: ls

/-- The newline-separated segments of a string. -/
def textSegments (s : String) : List String := (lineSplit s.data).map String.mk

/-- The lines of a text: newline-separated segments, where a trailing newline
terminates the final line instead of starting an empty one. -/
def lineList (s : String) : List String :=
  let ls := textSegments s
  match ls.getLast? with
  | some "" => ls.dropLast
  | _ => ls

/-- Whether a string begins with the given characters. -/
def beginsWith (s p : String) : Bool := p.data.isPrefixOf s.data

/-- Whether the text contains a blank (empty) line. -/
def hasBlankLine (s : String) : Bool := (lineList s).contains ""

/- ### Pod template data model

The slice of the Kubernetes core/v1 API mutated by the etcd storage options:
volumes, the containers' volume mounts and environment variables. -/

structure SecretVolumeSource where
  secretName : String
deriving DecidableEq

structure VolumeSource where
  secret : Option SecretVolumeSource
deriving DecidableEq

structure Volume where
  name : String
  volumeSource : VolumeSource
deriving DecidableEq

structure VolumeMount where
  name : String
  mountPath : String
  readOnly : Bool
deriving DecidableEq

/-- core.SecretKeySelector: `name` is the LocalObjectReference to the secret,
`key` the key within it. -/
structure SecretKeySelector where
  name : String
  key : String
deriving DecidableEq

structure EnvVarSource where
  secretKeyRef : Option SecretKeySelector
deriving DecidableEq

/-- core.EnvVar: `value` is the literal value (Go zero value "" when unset),
`valueFrom` the indirect source. -/
structure EnvVar where
  name : String
  value : String
  valueFrom : Option EnvVarSource
deriving DecidableEq

structure Container where
  volumeMounts : List VolumeMount
  env : List EnvVar
deriving DecidableEq

structure PodSpec where
  volumes : List Volume
  containers : List Container
deriving DecidableEq

structure PodTemplateSpec where
  spec : PodSpec
deriving DecidableEq

/- ### pkg/vault/storage/etcd/etcd.go -/

/-- api.EtcdSpec: the declarative etcd storage spec (the fields read by
Apply/GetStorageConfig). -/
structure EtcdSpec where
  Address : String
  EtcdApi : String
  Path : String
  DiscoverySrv : String
  HAEnable : Bool
  Sync : Bool
  TLSSecretName : String
  CredentialSecretName : String
deriving DecidableEq

def EtcdTLSAssetDir : String := "/etc/vault/storage/etcd/tls/"

def EtcdClientCaName : String := "ca.crt"

def EtcdClientCertName : String := "tls.crt"

def EtcdClientKeyName : String := "tls.key"

/-- The local constant `etcdTLSAssetVolume` of Options.Apply. -/
def etcdTLSAssetVolume : String := "vault-etcd-tls"

/-- Go filepath.Join as used on (EtcdTLSAssetDir, file name): concatenation
without doubling the directory's trailing slash (the arguments contain no
dot segments, so no further cleaning applies). -/
def filepathJoin (dir file : String) : String :=
  if dir.data.getLast? = some '/' then dir ++ file else dir ++ "/" ++ file

/-- The volume literal appended by Options.Apply when TLSSecretName is set. -/
def etcdTLSVolume (secretName : String) : Volume :=
  { name := etcdTLSAssetVolume,
    volumeSource := { secret := some { secretName := secretName } } }

/-- The volume mount literal appended by Options.Apply when TLSSecretName is
set. -/
def etcdTLSVolumeMount : VolumeMount :=
  { name := etcdTLSAssetVolume, mountPath := EtcdTLSAssetDir, readOnly := true }

/-- The ETCD_USERNAME environment variable literal appended by Options.Apply
when CredentialSecretName is set: sourced from key `username` of the named
secret, no literal value. -/
def etcdUsernameEnvVar (credName : String) : EnvVar :=
  { name := "ETCD_USERNAME", value := "",
    valueFrom := some { secretKeyRef := some { name := credName, key := "username" } } }

/-- The ETCD_PASSWORD environment variable literal appended by Options.Apply
when CredentialSecretName is set: sourced from key `password` of the named
secret, no literal value. -/
def etcdPasswordEnvVar (credName : String) : EnvVar :=
  { name := "ETCD_PASSWORD", value := "",
    valueFrom := some { secretKeyRef := some { name := credName, key := "password" } } }

/-- Options.Apply.  The pod template is mutated in place in Go; here the
mutated template is returned.  `none` marks the executions on which the Go
code panics (indexing `Containers[0]` of an empty container list); otherwise
the result carries the mutated template and the returned error, which is
always nil (`none`) since `return nil` is the only return statement. -/
def Apply (o : EtcdSpec) (pt : PodTemplateSpec) : Option (PodTemplateSpec × Option String) := do
  let pt1 ←
    if o.TLSSecretName ≠ "" then
      let ptv : PodTemplateSpec :=
        { pt with spec := { pt.spec with
            volumes := pt.spec.volumes ++ [etcdTLSVolume o.TLSSecretName] } }
      match ptv.spec.containers with
      | [] => none
      | c :: rest =>
        some { ptv with spec := { ptv.spec with containers :=
          { c with volumeMounts := c.volumeMounts ++ [etcdTLSVolumeMount] } :: rest } }
    else
      pure pt
  let pt2 ←
    if o.CredentialSecretName ≠ "" then
      match pt1.spec.containers with
      | [] => none
      | c :: rest =>
        some { pt1 with spec := { pt1.spec with containers :=
          { c with env := c.env ++
              [etcdUsernameEnvVar o.CredentialSecretName,
               etcdPasswordEnvVar o.CredentialSecretName] } :: rest } }
    else
      pure pt1
  pure (pt2, none)

/-- The `params` slice built by Options.GetStorageConfig, by the same
sequence of conditional appends as the Go code. -/
def getStorageConfigParams (o : EtcdSpec) : List String :=
  let params : List String := []
  let params := if o.Address ≠ "" then
      params ++ ["address = \"" ++ o.Address ++ "\""] else params
  let params := if o.EtcdApi ≠ "" then
      params ++ ["etcd_api = \"" ++ o.EtcdApi ++ "\""] else params
  let params := if o.Path ≠ "" then
      params ++ ["path = \"" ++ o.Path ++ "\""] else params
  let params := if o.DiscoverySrv ≠ "" then
      params ++ ["discovery_srv = \"" ++ o.DiscoverySrv ++ "\""] else params
  let params := if o.HAEnable then
      params ++ ["ha_enabled = \"true\""] else params ++ ["ha_enabled = \"false\""]
  let params := if o.Sync then
      params ++ ["sync = \"true\""] else params ++ ["sync = \"false\""]
  let params := if o.TLSSecretName ≠ "" then
      params ++ ["tls_ca_file = \"" ++ filepathJoin EtcdTLSAssetDir EtcdClientCaName ++ "\"",
                 "tls_cert_file = \"" ++ filepathJoin EtcdTLSAssetDir EtcdClientCertName ++ "\"",
                 "tls_key_file = \"" ++ filepathJoin EtcdTLSAssetDir EtcdClientKeyName ++ "\""]
    else params
  params

/-- The raw-string template `etcdStorageFmt` applied via fmt.Sprintf: the
template text is newline, `storage "etcd" \x7b`, newline, the parameter
block, newline, `\x7d`, newline. -/
def etcdStorageFmtApply (s : String) : String :=
  "\nstorage \"etcd\" \x7b\n" ++ s ++ "\n\x7d\n"

/-- Options.GetStorageConfig: the configuration text (the parameters joined
by strings.Join with newline, wrapped in the template) together with the
returned error, which is always nil. -/
def GetStorageConfig (o : EtcdSpec) : String × Option String :=
  (etcdStorageFmtApply (String.intercalate "\n" (getStorageConfigParams o)), none)

/- ### GCPRole controller

The controller talks to external collaborators: the vault adapter
(CreateRole/DeleteRole), the resource store (Get/Patch/UpdateStatus) and the
in-memory finalizer registry.  Each embedded function takes the outcome of
those calls as explicit inputs (an error is `Option String`, `none` standing
for Go's nil error) and returns a record of what it submitted to the store
and what it returned. -/

def GCPRolePhaseSuccess : String := "Success"

def GCPRoleFinalizer : String := "gcprole.engine.kubevault.com"

/-- kmapi.ConditionFailure. -/
def ConditionFailure : String := "Failure"

/-- kmapi.ConditionTrue. -/
def ConditionTrue : String := "True"

/-- kmapi.Condition, restricted to the fields the controller sets. -/
structure Condition where
  type : String
  status : String
  reason : String
  message : String
deriving DecidableEq

structure GCPRoleStatus where
  conditions : List Condition
  phase : String
  observedGeneration : Int
deriving DecidableEq

/-- api.GCPRole, restricted to the fields the embedded functions read
(`ns` is the object's namespace). -/
structure GCPRole where
  ns : String
  name : String
  generation : Int
  finalizers : List String
  status : GCPRoleStatus
deriving DecidableEq

/-- utilerrors.NewAggregate: drops nil errors and is nil when none remain.
An aggregate error is modelled as the flat list of its non-nil member
messages, `[]` standing for the nil error. -/
def newAggregate (errs : List (Option String)) : List String :=
  errs.filterMap id

/-- errors.Wrap: prepends the context message. -/
def errorsWrap (e : String) (msg : String) : String := msg ++ ": " ++ e

/-- What one run of reconcileGCPRole does: the status produced by the
mutator passed to UpdateGCPRoleStatus, and the returned error (as the list
of its member messages, `[]` for nil). -/
structure ReconcileGCPRoleResult where
  submittedStatus : GCPRoleStatus
  returnedErrors : List String
deriving DecidableEq

/-- reconcileGCPRole.  `createErr` is the outcome of gcpRClient.CreateRole()
(`none` = success); `statusPatchErr` the outcome of the UpdateGCPRoleStatus
call made in whichever branch runs. -/
def reconcileGCPRole (role : GCPRole) (createErr : Option String)
    (statusPatchErr : Option String) : ReconcileGCPRoleResult :=
  match createErr with
  | some e =>
    { submittedStatus :=
        { role.status with conditions :=
            [{ type := ConditionFailure, status := ConditionTrue,
               reason := "FailedToCreateRole", message := e }] }
      returnedErrors :=
        newAggregate [statusPatchErr, some (errorsWrap e "failed to create role")] }
  | none =>
    { submittedStatus :=
        { role.status with
          conditions := [],
          phase := GCPRolePhaseSuccess,
          observedGeneration := role.generation }
      returnedErrors := statusPatchErr.toList }

/-- The result of the Get in removeGCPRoleFinalizer. -/
inductive GetRoleResult where
  | found (m : GCPRole)
  | notFound
  | errored (e : String)
deriving DecidableEq

/-- core_util.RemoveFinalizer on the object meta: drops the finalizer token
from the finalizer list. -/
def removeFinalizerToken (m : GCPRole) (token : String) : GCPRole :=
  { m with finalizers := m.finalizers.filter (fun f => f ≠ token) }

/-- What one run of removeGCPRoleFinalizer does: the returned error and the
patched object submitted to the store (`none` when no patch was made). -/
structure RemoveFinalizerResult where
  returnedErr : Option String
  submittedPatch : Option GCPRole
deriving DecidableEq

/-- removeGCPRoleFinalizer: Get the current object; NotFound means the
object is already gone, so return nil without patching; any other Get error
is returned; otherwise patch with the RemoveFinalizer mutator and return the
patch call's error.  `get` is the Get outcome, `patchErr` the PatchGCPRole
outcome when the patch is attempted. -/
def removeGCPRoleFinalizer (get : GetRoleResult) (patchErr : Option String) :
    RemoveFinalizerResult :=
  match get with
  | .notFound => { returnedErr := none, submittedPatch := none }
  | .errored e => { returnedErr := some e, submittedPatch := none }
  | .found m =>
    { returnedErr := patchErr,
      submittedPatch := some (removeFinalizerToken m GCPRoleFinalizer) }

/-- One state of the retry loop in runGCPRoleFinalizer.  `deleteCalls` and
`removeCalls` count the finalization (DeleteRole) attempts and the
removeGCPRoleFinalizer calls made so far; `exitedByRemove` records that the
loop ended by a successful finalizer removal rather than by timeout. -/
structure FinalizerLoopState where
  finalizationDone : Bool
  deleteCalls : Nat
  removeCalls : Nat
  exitedByRemove : Bool
deriving DecidableEq

/-- The retry loop of runGCPRoleFinalizer.  Time is discretized by loop
iterations: `fuel` is the number of iterations the fixed timeout still
allows; at `fuel = 0` the stopCh select at the top of the loop observes the
timeout (`timeOutOccured`) and the loop breaks.  `deleteOk n` is whether the
n-th finalization attempt (NewGCPRole + finalizeGCPRole, i.e. DeleteRole)
succeeds; `removeOk n` whether the n-th removeGCPRoleFinalizer call of this
run succeeds. -/
def finalizerLoop (deleteOk removeOk : Nat → Bool) :
    Nat → FinalizerLoopState → FinalizerLoopState
  | 0, s => s
  | fuel + 1, s =>
    let s1 := if s.finalizationDone then s
      else { s with deleteCalls := s.deleteCalls + 1,
                    finalizationDone := deleteOk s.deleteCalls }
    if s1.finalizationDone then
      let ok := removeOk s1.removeCalls
      let s2 := { s1 with removeCalls := s1.removeCalls + 1 }
      if ok then { s2 with exitedByRemove := true }
      else finalizerLoop deleteOk removeOk fuel s2
    else finalizerLoop deleteOk removeOk fuel s1

/-- What one run of runGCPRoleFinalizer does with the finalizer registry and
the removal attempts.  `registered`/`unregistered`: whether
finalizerInfo.Add(id) resp. finalizerInfo.Delete(id) were called;
`totalRemoveCalls` counts every removeGCPRoleFinalizer call of the run,
including the unconditional one after the loop. -/
structure FinalizerRunResult where
  registered : Bool
  unregistered : Bool
  loopState : FinalizerLoopState
  totalRemoveCalls : Nat
deriving DecidableEq

/-- runGCPRoleFinalizer.  `alreadyProcessing` is the result of the
finalizerInfo.IsAlreadyProcessing(id) guard at entry (the nil-role guard is
outside the model: a Lean GCPRole value is never nil).  If the guard passes,
the id is registered, the retry loop runs within `timeoutIters` iterations,
one more unconditional removeGCPRoleFinalizer call is made (its result only
logged), and finally the id is deleted from the registry. -/
def runGCPRoleFinalizer (alreadyProcessing : Bool) (deleteOk removeOk : Nat → Bool)
    (timeoutIters : Nat) : FinalizerRunResult :=
  if alreadyProcessing then
    { registered := false, unregistered := false,
      loopState := ⟨false, 0, 0, false⟩, totalRemoveCalls := 0 }
  else
    let ls := finalizerLoop deleteOk removeOk timeoutIters ⟨false, 0, 0, false⟩
    { registered := true, unregistered := true,
      loopState := ls, totalRemoveCalls := ls.removeCalls + 1 }

/- ### Named parameter strings and concrete fixtures -/

def haTrueParam : String := "ha_enabled = \"true\""

def haFalseParam : String := "ha_enabled = \"false\""

def syncTrueParam : String := "sync = \"true\""

def syncFalseParam : String := "sync = \"false\""

def tlsCaParam : String := "tls_ca_file = \"/etc/vault/storage/etcd/tls/ca.crt\""

def tlsCertParam : String := "tls_cert_file = \"/etc/vault/storage/etcd/tls/tls.crt\""

def tlsKeyParam : String := "tls_key_file = \"/etc/vault/storage/etcd/tls/tls.key\""

/-- Spec with every field empty or false. -/
def wEmptySpec : EtcdSpec := ⟨"", "", "", "", false, false, "", ""⟩

/-- Spec with HA enabled and everything else empty or false. -/
def wC1Spec : EtcdSpec := ⟨"", "", "", "", true, false, "", ""⟩

/-- The spec of the scenario in the specification document. -/
def wC2Spec : EtcdSpec := ⟨"http://etcd:2379", "", "", "", true, false, "", ""⟩

/-- Spec whose only non-empty optional field is the TLS secret name. -/
def wTLSSpec : EtcdSpec := ⟨"", "", "", "", false, false, "etcd-client-tls", ""⟩

/-- Spec whose only non-empty optional field is the credential secret name. -/
def wCredSpec : EtcdSpec := ⟨"", "", "", "", false, false, "", "etcd-credentials"⟩

/-- A container with no mounts and no environment. -/
def wContainer : Container := ⟨[], []⟩

/-- A pod template with one container. -/
def wPodTemplate : PodTemplateSpec := ⟨⟨[], [wContainer]⟩⟩

/-- A pod template with no containers. -/
def wEmptyPodTemplate : PodTemplateSpec := ⟨⟨[], []⟩⟩

/- ### Helper lemmas -/

set_option maxHeartbeats 1600000 in
/-- Normal form of the parameter list: the sequence of conditional appends
flattened into one concatenation. -/
theorem getStorageConfigParams_eq (o : EtcdSpec) :
    getStorageConfigParams o =
      (if o.Address ≠ "" then ["address = \"" ++ o.Address ++ "\""] else []) ++
      (if o.EtcdApi ≠ "" then ["etcd_api = \"" ++ o.EtcdApi ++ "\""] else []) ++
      (if o.Path ≠ "" then ["path = \"" ++ o.Path ++ "\""] else []) ++
      (if o.DiscoverySrv ≠ "" then ["discovery_srv = \"" ++ o.DiscoverySrv ++ "\""] else []) ++
      [if o.HAEnable then haTrueParam else haFalseParam] ++
      [if o.Sync then syncTrueParam else syncFalseParam] ++
      (if o.TLSSecretName ≠ "" then [tlsCaParam, tlsCertParam, tlsKeyParam] else []) := by
  have hca : "tls_ca_file = \"" ++ filepathJoin EtcdTLSAssetDir EtcdClientCaName ++ "\"" =
      tlsCaParam := by rfl
  have hcert : "tls_cert_file = \"" ++ filepathJoin EtcdTLSAssetDir EtcdClientCertName ++ "\"" =
      tlsCertParam := by rfl
  have hkey : "tls_key_file = \"" ++ filepathJoin EtcdTLSAssetDir EtcdClientKeyName ++ "\"" =
      tlsKeyParam := by rfl
  unfold getStorageConfigParams
  split_ifs <;>
    simp [hca, hcert, hkey, haTrueParam, haFalseParam, syncTrueParam, syncFalseParam]

/-- Two strings with different leading characters differ. -/
theorem ne_of_data_head {s t : String} (h : s.data.head? ≠ t.data.head?) : s ≠ t :=
  fun he => h (he ▸ rfl)

/-- Membership in a conditional list. -/
theorem mem_ite_nil {α : Type} {c : Prop} [Decidable c] {p : α} {l : List α}
    (h : p ∈ if c then l else []) : c ∧ p ∈ l := by
  split_ifs at h with hc
  · exact ⟨hc, h⟩
  · simp at h

/-- Every element of the parameter list has one of the eight key shapes,
the three tls entries occurring only when TLSSecretName is set. -/
theorem mem_getStorageConfigParams {o : EtcdSpec} {p : String}
    (hp : p ∈ getStorageConfigParams o) :
    p = "address = \"" ++ o.Address ++ "\"" ∨
    p = "etcd_api = \"" ++ o.EtcdApi ++ "\"" ∨
    p = "path = \"" ++ o.Path ++ "\"" ∨
    p = "discovery_srv = \"" ++ o.DiscoverySrv ++ "\"" ∨
    p = (if o.HAEnable then haTrueParam else haFalseParam) ∨
    p = (if o.Sync then syncTrueParam else syncFalseParam) ∨
    (o.TLSSecretName ≠ "" ∧ (p = tlsCaParam ∨ p = tlsCertParam ∨ p = tlsKeyParam)) := by
  rw [getStorageConfigParams_eq] at hp
  simp only [List.append_assoc, List.mem_append, List.mem_singleton] at hp
  rcases hp with hp | hp | hp | hp | hp | hp | hp
  · exact Or.inl (by simpa using (mem_ite_nil hp).2)
  · exact Or.inr (Or.inl (by simpa using (mem_ite_nil hp).2))
  · exact Or.inr (Or.inr (Or.inl (by simpa using (mem_ite_nil hp).2)))
  · exact Or.inr (Or.inr (Or.inr (Or.inl (by simpa using (mem_ite_nil hp).2))))
  · exact Or.inr (Or.inr (Or.inr (Or.inr (Or.inl hp))))
  · exact Or.inr (Or.inr (Or.inr (Or.inr (Or.inr (Or.inl hp)))))
  · obtain ⟨hc, hm⟩ := mem_ite_nil hp
    exact Or.inr (Or.inr (Or.inr (Or.inr (Or.inr (Or.inr ⟨hc, by simpa using hm⟩)))))

/-- lineSplit never returns the empty list. -/
theorem lineSplit_ne_nil (l : List Char) : lineSplit l ≠ [] := by
  cases l with
  | nil => simp [lineSplit]
  | cons c cs =>
    cases hls : lineSplit cs <;> by_cases h : c = '\n' <;> simp [lineSplit, h, hls]

/-- Splitting at newlines distributes over an append whose boundary is a
newline character. -/
theorem lineSplit_append_newline (a b : List Char) :
    lineSplit (a ++ '\n' :: b) = lineSplit a ++ lineSplit b := by
  induction a with
  | nil => simp [lineSplit]
  | cons c cs ih =>
    by_cases h : c = '\n'
    · simp [lineSplit, h, ih]
    · cases hls : lineSplit cs with
      | nil => exact absurd hls (lineSplit_ne_nil cs)
      | cons l ls => simp [lineSplit, h, ih, hls]

/-- A newline-free character list is one whole segment. -/
theorem lineSplit_no_newline {l : List Char} (h : '\n' ∉ l) : lineSplit l = [l] := by
  induction l with
  | nil => rfl
  | cons c cs ih =>
    simp only [List.mem_cons, not_or] at h
    have hc : ¬ c = '\n' := fun hh => h.1 hh.symm
    simp [lineSplit, hc, ih h.2]

/-- Structure eta for strings. -/
theorem mk_data (p : String) : String.mk p.data = p := rfl

/-- The accumulator of String.intercalate.go factors out. -/
theorem intercalate_go_append (a : String) (as : List String) :
    ∀ b : String, String.intercalate.go (a ++ b) "\n" as =
      a ++ String.intercalate.go b "\n" as := by
  induction as with
  | nil => intro b; rfl
  | cons c cs ih =>
    intro b
    calc String.intercalate.go (a ++ b) "\n" (c :: cs)
        = String.intercalate.go ((a ++ b) ++ "\n" ++ c) "\n" cs := rfl
      _ = String.intercalate.go (a ++ (b ++ "\n" ++ c)) "\n" cs := by
            simp [String.append_assoc]
      _ = a ++ String.intercalate.go (b ++ "\n" ++ c) "\n" cs := ih (b ++ "\n" ++ c)
      _ = a ++ String.intercalate.go b "\n" (c :: cs) := rfl

/-- String.intercalate over a cons with a non-empty tail. -/
theorem intercalate_cons_ne_nil (p : String) {rest : List String} (h : rest ≠ []) :
    String.intercalate "\n" (p :: rest) = p ++ "\n" ++ String.intercalate "\n" rest := by
  cases rest with
  | nil => exact absurd rfl h
  | cons r rs => exact intercalate_go_append (p ++ "\n") rs r

/-- Every member of the joined list sits between the join's boundaries: at
the very start, at the very end, alone, or between two newline characters. -/
theorem intercalate_mem_decomp {p : String} :
    ∀ {params : List String}, p ∈ params →
      (String.intercalate "\n" params).data = p.data ∨
      (∃ B, (String.intercalate "\n" params).data = p.data ++ '\n' :: B) ∨
      (∃ A, (String.intercalate "\n" params).data = A ++ '\n' :: p.data) ∨
      (∃ A B, (String.intercalate "\n" params).data = A ++ '\n' :: (p.data ++ '\n' :: B)) := by
  intro params
  induction params with
  | nil => intro hp; simp at hp
  | cons q rest ih =>
    intro hp
    have hnd : ("\n" : String).data = ['\n'] := rfl
    rcases List.mem_cons.mp hp with rfl | hp'
    · cases rest with
      | nil => exact Or.inl rfl
      | cons r rs =>
        refine Or.inr (Or.inl ⟨(String.intercalate "\n" (r :: rs)).data, ?_⟩)
        rw [intercalate_cons_ne_nil p (by simp)]
        simp [hnd]
    · have hne : rest ≠ [] := List.ne_nil_of_mem hp'
      rw [intercalate_cons_ne_nil q hne]
      rcases ih hp' with h | ⟨B, h⟩ | ⟨A, h⟩ | ⟨A, B, h⟩
      · exact Or.inr (Or.inr (Or.inl ⟨q.data, by simp [hnd, h]⟩))
      · exact Or.inr (Or.inr (Or.inr ⟨q.data, B, by simp [hnd, h]⟩))
      · exact Or.inr (Or.inr (Or.inl ⟨q.data ++ '\n' :: A, by simp [hnd, h]⟩))
      · exact Or.inr (Or.inr (Or.inr ⟨q.data ++ '\n' :: A, B, by simp [hnd, h]⟩))

/-- Every newline-free parameter of the list is one of the lines of the
generated configuration text (the template's header ends with a newline and
its footer starts with one, so the parameter is a whole line of its own). -/
theorem param_mem_lineList {params : List String} {p : String}
    (hp : p ∈ params) (hnl : '\n' ∉ p.data) :
    p ∈ lineList (etcdStorageFmtApply (String.intercalate "\n" params)) := by
  obtain ⟨A, B, hAB⟩ : ∃ A B,
      (etcdStorageFmtApply (String.intercalate "\n" params)).data =
        A ++ '\n' :: (p.data ++ '\n' :: B) := by
    have h1 : ("\nstorage \"etcd\" \x7b\n" : String).data =
        ("\nstorage \"etcd\" \x7b" : String).data ++ ['\n'] := by decide
    have h2 : ("\n\x7d\n" : String).data = '\n' :: ("\x7d\n" : String).data := by decide
    have hdata : (etcdStorageFmtApply (String.intercalate "\n" params)).data =
        ("\nstorage \"etcd\" \x7b" : String).data ++
          '\n' :: ((String.intercalate "\n" params).data ++
            '\n' :: ("\x7d\n" : String).data) := by
      show (("\nstorage \"etcd\" \x7b\n" ++ String.intercalate "\n" params) ++ "\n\x7d\n").data = _
      rw [String.data_append, String.data_append, h1, h2]
      simp
    rcases intercalate_mem_decomp hp with h | ⟨B0, h⟩ | ⟨A0, h⟩ | ⟨A0, B0, h⟩
    · exact ⟨("\nstorage \"etcd\" \x7b" : String).data, ("\x7d\n" : String).data,
        by rw [hdata, h]⟩
    · refine ⟨("\nstorage \"etcd\" \x7b" : String).data,
        B0 ++ '\n' :: ("\x7d\n" : String).data, ?_⟩
      rw [hdata, h]; simp
    · refine ⟨("\nstorage \"etcd\" \x7b" : String).data ++ '\n' :: A0,
        ("\x7d\n" : String).data, ?_⟩
      rw [hdata, h]; simp
    · refine ⟨("\nstorage \"etcd\" \x7b" : String).data ++ '\n' :: A0,
        B0 ++ '\n' :: ("\x7d\n" : String).data, ?_⟩
      rw [hdata, h]; simp
  have hsegs : textSegments (etcdStorageFmtApply (String.intercalate "\n" params)) =
      (lineSplit A).map String.mk ++ [p] ++ (lineSplit B).map String.mk := by
    unfold textSegments
    rw [hAB, lineSplit_append_newline, lineSplit_append_newline, lineSplit_no_newline hnl]
    simp [mk_data]
  have hch : (lineSplit B).map String.mk ≠ [] := by
    intro hmap
    exact lineSplit_ne_nil B (by simpa using hmap)
  show p ∈ (match (textSegments (etcdStorageFmtApply (String.intercalate "\n" params))).getLast? with
    | some "" => (textSegments (etcdStorageFmtApply (String.intercalate "\n" params))).dropLast
    | _ => textSegments (etcdStorageFmtApply (String.intercalate "\n" params)))
  split
  · rw [hsegs, show (lineSplit A).map String.mk ++ [p] ++ (lineSplit B).map String.mk =
        ((lineSplit A).map String.mk ++ [p]) ++ (lineSplit B).map String.mk from by simp,
      List.dropLast_append_of_ne_nil _ hch]
    simp
  · rw [hsegs]; simp

/-- Reduction of Apply on a template with at least one container: the volume,
mount and environment appends happen exactly when the corresponding secret
name is non-empty, and the returned error is nil. -/
theorem Apply_cons (o : EtcdSpec) (vols : List Volume) (c : Container)
    (rest : List Container) :
    Apply o ⟨⟨vols, c :: rest⟩⟩ =
      some (⟨⟨vols ++ (if o.TLSSecretName ≠ "" then [etcdTLSVolume o.TLSSecretName] else []),
        { c with
          volumeMounts := c.volumeMounts ++
            (if o.TLSSecretName ≠ "" then [etcdTLSVolumeMount] else []),
          env := c.env ++
            (if o.CredentialSecretName ≠ "" then
              [etcdUsernameEnvVar o.CredentialSecretName,
               etcdPasswordEnvVar o.CredentialSecretName] else []) } :: rest⟩⟩, none) := by
  by_cases ht : o.TLSSecretName = "" <;> by_cases hcr : o.CredentialSecretName = "" <;>
    simp [Apply, ht, hcr]

/-- Claim C1, counterexample: for the spec with every optional field empty the
generated text is the template around the two boolean parameters, and because
the template opens with a newline the text's first line is blank — so the
clause "the generated text contains no blank lines even when all optional
fields are empty" fails. -/
theorem claim_c1_counterexample :
    (GetStorageConfig wEmptySpec).1 =
      "\nstorage \"etcd\" \x7b\nha_enabled = \"false\"\nsync = \"false\"\n\x7d\n" ∧
    hasBlankLine (GetStorageConfig wEmptySpec).1 = true :=
  ⟨by rfl, by rfl⟩

/-- Claim C1, amended: for every storage spec the returned configuration
text has among its lines an explicit `ha_enabled` line and an explicit
`sync` line, rendered as the literal quoted words true/false matching the
flags; the text is the fixed template wrapped around exactly one
`key = "value"` parameter per present field in the fixed order, every
omitted optional string field (address, etcd_api, path, discovery_srv, tls
secret) contributing no output at all; and when every optional field is
omitted the text's lines are exactly the template's leading blank line, the
storage header, the two boolean lines and the closing brace — so no blank
line occurs beyond the one the template wrapper itself opens with. -/
theorem claim_c1_amended (o : EtcdSpec) :
    (if o.HAEnable then haTrueParam else haFalseParam) ∈ lineList (GetStorageConfig o).1 ∧
    (if o.Sync then syncTrueParam else syncFalseParam) ∈ lineList (GetStorageConfig o).1 ∧
    (GetStorageConfig o).1 =
      etcdStorageFmtApply (String.intercalate "\n" (
        (if o.Address ≠ "" then ["address = \"" ++ o.Address ++ "\""] else []) ++
        (if o.EtcdApi ≠ "" then ["etcd_api = \"" ++ o.EtcdApi ++ "\""] else []) ++
        (if o.Path ≠ "" then ["path = \"" ++ o.Path ++ "\""] else []) ++
        (if o.DiscoverySrv ≠ "" then ["discovery_srv = \"" ++ o.DiscoverySrv ++ "\""] else []) ++
        [if o.HAEnable then haTrueParam else haFalseParam] ++
        [if o.Sync then syncTrueParam else syncFalseParam] ++
        (if o.TLSSecretName ≠ "" then [tlsCaParam, tlsCertParam, tlsKeyParam] else []))) ∧
    (o.Address = "" → o.EtcdApi = "" → o.Path = "" → o.DiscoverySrv = "" →
      o.TLSSecretName = "" →
      lineList (GetStorageConfig o).1 =
        ["", "storage \"etcd\" \x7b",
         if o.HAEnable then haTrueParam else haFalseParam,
         if o.Sync then syncTrueParam else syncFalseParam,
         "\x7d"]) := by
  have hha : (if o.HAEnable then haTrueParam else haFalseParam) ∈ getStorageConfigParams o := by
    rw [getStorageConfigParams_eq]; simp
  have hsy : (if o.Sync then syncTrueParam else syncFalseParam) ∈ getStorageConfigParams o := by
    rw [getStorageConfigParams_eq]; simp
  have hnlha : '\n' ∉ (if o.HAEnable then haTrueParam else haFalseParam).data := by
    cases h : o.HAEnable <;> decide
  have hnlsy : '\n' ∉ (if o.Sync then syncTrueParam else syncFalseParam).data := by
    cases h : o.Sync <;> decide
  refine ⟨param_mem_lineList hha hnlha, param_mem_lineList hsy hnlsy, ?_, ?_⟩
  · show etcdStorageFmtApply (String.intercalate "\n" (getStorageConfigParams o)) = _
    rw [getStorageConfigParams_eq]
  · obtain ⟨addr, api, pth, srv, ha, sy, tls, cred⟩ := o
    rintro rfl rfl rfl rfl rfl
    cases ha <;> cases sy <;> rfl

/-- Claim C1, witness: the amended claim evaluated at the spec with HA
enabled and all optional fields empty. -/
theorem claim_c1_witness :
    haTrueParam ∈ lineList (GetStorageConfig wC1Spec).1 ∧
    syncFalseParam ∈ lineList (GetStorageConfig wC1Spec).1 ∧
    (GetStorageConfig wC1Spec).1 =
      etcdStorageFmtApply (String.intercalate "\n"
        ([] ++ [] ++ [] ++ [] ++ [haTrueParam] ++ [syncFalseParam] ++ [])) ∧
    lineList (GetStorageConfig wC1Spec).1 =
      ["", "storage \"etcd\" \x7b", haTrueParam, syncFalseParam, "\x7d"] := by
  obtain ⟨h1, h2, h3, h4⟩ := claim_c1_amended wC1Spec
  exact ⟨by simpa [wC1Spec] using h1, by simpa [wC1Spec] using h2,
         by simpa [wC1Spec] using h3,
         by simpa [wC1Spec] using h4 rfl rfl rfl rfl rfl⟩

/-- Claim C2: for the spec with Address http://etcd:2379, HAEnable true,
Sync false and everything else empty, the configuration text contains the
address line, the `ha_enabled = "true"` line and the `sync = "false"` line,
and no line of it begins with `tls_`. -/
theorem claim_c2 :
    "address = \"http://etcd:2379\"" ∈ lineList (GetStorageConfig wC2Spec).1 ∧
    "ha_enabled = \"true\"" ∈ lineList (GetStorageConfig wC2Spec).1 ∧
    "sync = \"false\"" ∈ lineList (GetStorageConfig wC2Spec).1 ∧
    (lineList (GetStorageConfig wC2Spec).1).all (fun l => !(beginsWith l "tls_")) = true := by
  refine ⟨?_, ?_, ?_, ?_⟩ <;> decide

/-- Strings whose first characters differ are distinct (specialized to the
tls parameters, which begin with the character t). -/
theorem field_param_ne_tls {s t : String} (c : Char) (hs : s.data.head? = some c)
    (hc : c ≠ 't') (htl : t.data.head? = some 't') : s ≠ t :=
  ne_of_data_head (by rw [hs, htl]; simp [hc])

/-- Claim C3: with a non-empty TLSSecretName, Apply appends exactly one
volume for that secret and one read-only mount at EtcdTLSAssetDir on the
first container, and the parameter list gains exactly the three tls_*_file
parameters pointing at ca.crt/tls.crt/tls.key under that directory; with it
empty, volumes and mounts are untouched and no tls parameter is emitted. -/
theorem claim_c3 (o : EtcdSpec) (pt : PodTemplateSpec) (c : Container)
    (rest : List Container) (hc : pt.spec.containers = c :: rest) :
    (o.TLSSecretName ≠ "" →
      ∃ pt', Apply o pt = some (pt', none) ∧
        pt'.spec.volumes = pt.spec.volumes ++ [etcdTLSVolume o.TLSSecretName] ∧
        pt'.spec.containers.map (fun k => k.volumeMounts) =
          (c.volumeMounts ++ [etcdTLSVolumeMount]) :: rest.map (fun k => k.volumeMounts) ∧
        getStorageConfigParams o =
          getStorageConfigParams { o with TLSSecretName := "" } ++
            [tlsCaParam, tlsCertParam, tlsKeyParam]) ∧
    (o.TLSSecretName = "" →
      (∃ pt', Apply o pt = some (pt', none) ∧
        pt'.spec.volumes = pt.spec.volumes ∧
        pt'.spec.containers.map (fun k => k.volumeMounts) =
          pt.spec.containers.map (fun k => k.volumeMounts)) ∧
      ∀ p ∈ getStorageConfigParams o,
        p ≠ tlsCaParam ∧ p ≠ tlsCertParam ∧ p ≠ tlsKeyParam) := by
  obtain ⟨⟨vols, conts⟩⟩ := pt
  have hc' : conts = c :: rest := hc
  subst hc'
  obtain ⟨addr, api, pth, srv, ha, sy, tls, cred⟩ := o
  constructor
  · intro ht
    refine ⟨_, Apply_cons _ vols c rest, ?_, ?_, ?_⟩
    · simp [ht]
    · simp [ht]
    · rw [getStorageConfigParams_eq, getStorageConfigParams_eq]
      simp [ht]
  · intro ht
    have ht' : tls = "" := ht
    subst ht'
    constructor
    · refine ⟨_, Apply_cons _ vols c rest, ?_, ?_⟩ <;> simp
    · intro p hp
      rcases mem_getStorageConfigParams hp with h | h | h | h | h | h | ⟨htls, _⟩
      · obtain ⟨la⟩ := addr
        subst h
        have hne : ∀ t : String, t.data.head? = some 't' →
            "address = \"" ++ String.mk la ++ "\"" ≠ t :=
          fun t htl => field_param_ne_tls 'a' rfl (by decide) htl
        exact ⟨hne _ rfl, hne _ rfl, hne _ rfl⟩
      · obtain ⟨la⟩ := api
        subst h
        have hne : ∀ t : String, t.data.head? = some 't' →
            "etcd_api = \"" ++ String.mk la ++ "\"" ≠ t :=
          fun t htl => field_param_ne_tls 'e' rfl (by decide) htl
        exact ⟨hne _ rfl, hne _ rfl, hne _ rfl⟩
      · obtain ⟨la⟩ := pth
        subst h
        have hne : ∀ t : String, t.data.head? = some 't' →
            "path = \"" ++ String.mk la ++ "\"" ≠ t :=
          fun t htl => field_param_ne_tls 'p' rfl (by decide) htl
        exact ⟨hne _ rfl, hne _ rfl, hne _ rfl⟩
      · obtain ⟨la⟩ := srv
        subst h
        have hne : ∀ t : String, t.data.head? = some 't' →
            "discovery_srv = \"" ++ String.mk la ++ "\"" ≠ t :=
          fun t htl => field_param_ne_tls 'd' rfl (by decide) htl
        exact ⟨hne _ rfl, hne _ rfl, hne _ rfl⟩
      · cases ha with
        | false =>
          subst h
          exact show haFalseParam ≠ tlsCaParam ∧ haFalseParam ≠ tlsCertParam ∧
              haFalseParam ≠ tlsKeyParam by decide
        | true =>
          subst h
          exact show haTrueParam ≠ tlsCaParam ∧ haTrueParam ≠ tlsCertParam ∧
              haTrueParam ≠ tlsKeyParam by decide
      · cases sy with
        | false =>
          subst h
          exact show syncFalseParam ≠ tlsCaParam ∧ syncFalseParam ≠ tlsCertParam ∧
              syncFalseParam ≠ tlsKeyParam by decide
        | true =>
          subst h
          exact show syncTrueParam ≠ tlsCaParam ∧ syncTrueParam ≠ tlsCertParam ∧
              syncTrueParam ≠ tlsKeyParam by decide
      · exact absurd rfl htls

/-- Claim C3, witness: the TLS branch evaluated at a spec naming a TLS
secret and a template with one container. -/
theorem claim_c3_witness :
    wPodTemplate.spec.containers = wContainer :: [] ∧
    wTLSSpec.TLSSecretName ≠ "" ∧
    (∃ pt', Apply wTLSSpec wPodTemplate = some (pt', none) ∧
      pt'.spec.volumes = wPodTemplate.spec.volumes ++ [etcdTLSVolume wTLSSpec.TLSSecretName] ∧
      pt'.spec.containers.map (fun k => k.volumeMounts) =
        (wContainer.volumeMounts ++ [etcdTLSVolumeMount]) ::
          ([] : List Container).map (fun k => k.volumeMounts) ∧
      getStorageConfigParams wTLSSpec =
        getStorageConfigParams { wTLSSpec with TLSSecretName := "" } ++
          [tlsCaParam, tlsCertParam, tlsKeyParam]) :=
  ⟨rfl, by decide, (claim_c3 wTLSSpec wPodTemplate wContainer [] rfl).1 (by decide)⟩

/-- Claim C4: with a non-empty CredentialSecretName, Apply appends exactly
the two environment bindings ETCD_USERNAME then ETCD_PASSWORD to the first
container, each sourced from the keys username/password of that secret with
no literal value; with it empty the container environments are unchanged;
and the configuration text never depends on the credential secret at all. -/
theorem claim_c4 (o : EtcdSpec) (pt : PodTemplateSpec) (c : Container)
    (rest : List Container) (hc : pt.spec.containers = c :: rest) :
    (o.CredentialSecretName ≠ "" →
      ∃ pt', Apply o pt = some (pt', none) ∧
        pt'.spec.containers.map (fun k => k.env) =
          (c.env ++ [etcdUsernameEnvVar o.CredentialSecretName,
                     etcdPasswordEnvVar o.CredentialSecretName]) ::
            rest.map (fun k => k.env) ∧
        (etcdUsernameEnvVar o.CredentialSecretName).value = "" ∧
        (etcdPasswordEnvVar o.CredentialSecretName).value = "" ∧
        (etcdUsernameEnvVar o.CredentialSecretName).valueFrom =
          some ⟨some ⟨o.CredentialSecretName, "username"⟩⟩ ∧
        (etcdPasswordEnvVar o.CredentialSecretName).valueFrom =
          some ⟨some ⟨o.CredentialSecretName, "password"⟩⟩) ∧
    (o.CredentialSecretName = "" →
      ∃ pt', Apply o pt = some (pt', none) ∧
        pt'.spec.containers.map (fun k => k.env) =
          pt.spec.containers.map (fun k => k.env)) ∧
    (∀ x, GetStorageConfig { o with CredentialSecretName := x } = GetStorageConfig o) := by
  obtain ⟨⟨vols, conts⟩⟩ := pt
  have hc' : conts = c :: rest := hc
  subst hc'
  refine ⟨?_, ?_, fun x => rfl⟩
  · intro hcr
    refine ⟨_, Apply_cons o vols c rest, ?_, rfl, rfl, rfl, rfl⟩
    simp [hcr]
  · intro hcr
    refine ⟨_, Apply_cons o vols c rest, ?_⟩
    simp [hcr]

/-- Claim C4, witness: the credential branch evaluated at a spec naming a
credential secret and a template with one container. -/
theorem claim_c4_witness :
    wCredSpec.CredentialSecretName ≠ "" ∧
    (∃ pt', Apply wCredSpec wPodTemplate = some (pt', none) ∧
      pt'.spec.containers.map (fun k => k.env) =
        (wContainer.env ++ [etcdUsernameEnvVar wCredSpec.CredentialSecretName,
                            etcdPasswordEnvVar wCredSpec.CredentialSecretName]) ::
          ([] : List Container).map (fun k => k.env) ∧
      (etcdUsernameEnvVar wCredSpec.CredentialSecretName).value = "" ∧
      (etcdPasswordEnvVar wCredSpec.CredentialSecretName).value = "" ∧
      (etcdUsernameEnvVar wCredSpec.CredentialSecretName).valueFrom =
        some ⟨some ⟨wCredSpec.CredentialSecretName, "username"⟩⟩ ∧
      (etcdPasswordEnvVar wCredSpec.CredentialSecretName).valueFrom =
        some ⟨some ⟨wCredSpec.CredentialSecretName, "password"⟩⟩) ∧
    GetStorageConfig { wCredSpec with CredentialSecretName := "other" } =
      GetStorageConfig wCredSpec :=
  ⟨by decide,
   (claim_c4 wCredSpec wPodTemplate wContainer [] rfl).1 (by decide),
   (claim_c4 wCredSpec wPodTemplate wContainer [] rfl).2.2 "other"⟩

/-- Claim C10: Apply indexes the first container whenever either secret name
is non-empty, so it is undefined (the Go code panics) exactly when that
happens on a template with no containers; with at least one container it is
defined and returns the nil error; with both names empty it returns the
template unchanged with the nil error. -/
theorem claim_c10 (o : EtcdSpec) (pt : PodTemplateSpec) :
    (pt.spec.containers = [] →
      (o.TLSSecretName ≠ "" ∨ o.CredentialSecretName ≠ "") → Apply o pt = none) ∧
    (pt.spec.containers ≠ [] → ∃ pt', Apply o pt = some (pt', none)) ∧
    (o.TLSSecretName = "" → o.CredentialSecretName = "" →
      Apply o pt = some (pt, none)) := by
  obtain ⟨⟨vols, conts⟩⟩ := pt
  refine ⟨?_, ?_, ?_⟩
  · intro hc hne
    have hc' : conts = [] := hc
    subst hc'
    rcases hne with ht | hcr
    · simp [Apply, ht]
    · by_cases ht : EtcdSpec.TLSSecretName o = "" <;> simp [Apply, ht, hcr]
  · intro hc
    have hc' : conts ≠ [] := hc
    obtain ⟨c, rest, rfl⟩ := List.exists_cons_of_ne_nil hc'
    exact ⟨_, Apply_cons o vols c rest⟩
  · intro ht hcr
    simp [Apply, ht, hcr]

/-- Claim C10, witness: evaluations with one container, with no container,
and with both secret names empty. -/
theorem claim_c10_witness :
    Apply wTLSSpec wEmptyPodTemplate = none ∧
    (∃ pt', Apply wTLSSpec wPodTemplate = some (pt', none)) ∧
    Apply wEmptySpec wEmptyPodTemplate = some (wEmptyPodTemplate, none) :=
  ⟨(claim_c10 wTLSSpec wEmptyPodTemplate).1 rfl (Or.inl (by decide)),
   (claim_c10 wTLSSpec wPodTemplate).2.1 (by decide),
   (claim_c10 wEmptySpec wEmptyPodTemplate).2.2 rfl rfl⟩

/-- Claim C5: when CreateRole fails, reconcileGCPRole submits a status whose
condition list is exactly one Failure condition carrying the reason and the
error message, and returns the non-nil aggregate of the status-patch error
(when present) with the wrapped create error. -/
theorem claim_c5 (role : GCPRole) (e : String) (patchErr : Option String) :
    (reconcileGCPRole role (some e) patchErr).submittedStatus.conditions =
      [{ type := ConditionFailure, status := ConditionTrue,
         reason := "FailedToCreateRole", message := e }] ∧
    (reconcileGCPRole role (some e) patchErr).returnedErrors =
      patchErr.toList ++ [errorsWrap e "failed to create role"] ∧
    (reconcileGCPRole role (some e) patchErr).returnedErrors ≠ [] := by
  refine ⟨rfl, ?_, ?_⟩ <;> cases patchErr <;> simp [reconcileGCPRole, newAggregate]

/-- Claim C6: when CreateRole succeeds, reconcileGCPRole submits a status
with an empty condition list, phase Success and observedGeneration equal to
the resource's generation counter. -/
theorem claim_c6 (role : GCPRole) (patchErr : Option String) :
    (reconcileGCPRole role none patchErr).submittedStatus.conditions = [] ∧
    (reconcileGCPRole role none patchErr).submittedStatus.phase = GCPRolePhaseSuccess ∧
    (reconcileGCPRole role none patchErr).submittedStatus.observedGeneration =
      role.generation :=
  ⟨rfl, rfl, rfl⟩

/-- Claim C7: every execution of runGCPRoleFinalizer that registers the id in
the finalizer registry also deletes it from the registry as its final step,
whatever the delete/remove outcomes and whenever the timeout fires. -/
theorem claim_c7 (alreadyProcessing : Bool) (deleteOk removeOk : Nat → Bool)
    (timeoutIters : Nat)
    (h : (runGCPRoleFinalizer alreadyProcessing deleteOk removeOk
        timeoutIters).registered = true) :
    (runGCPRoleFinalizer alreadyProcessing deleteOk removeOk
      timeoutIters).unregistered = true := by
  cases alreadyProcessing with
  | false => rfl
  | true => simp [runGCPRoleFinalizer] at h

/-- Claim C7, witness: a registering run with failing delete and remove
oracles and a two-iteration timeout. -/
theorem claim_c7_witness :
    (runGCPRoleFinalizer false (fun _ => false) (fun _ => false) 2).registered = true ∧
    (runGCPRoleFinalizer false (fun _ => false) (fun _ => false) 2).unregistered = true :=
  ⟨rfl, claim_c7 false (fun _ => false) (fun _ => false) 2 rfl⟩

/-- In a run where every finalization attempt fails, the loop never becomes
finalizationDone, makes no removal call, and exits only by timeout. -/
theorem finalizerLoop_deleteFail (removeOk : Nat → Bool) (fuel : Nat) :
    ∀ (k m : Nat) (ex : Bool),
      finalizerLoop (fun _ => false) removeOk fuel ⟨false, k, m, ex⟩ =
        ⟨false, k + fuel, m, ex⟩ := by
  induction fuel with
  | zero => intro k m ex; rfl
  | succ n ih =>
    intro k m ex
    have hstep : finalizerLoop (fun _ => false) removeOk (n + 1) ⟨false, k, m, ex⟩ =
        finalizerLoop (fun _ => false) removeOk n ⟨false, k + 1, m, ex⟩ := rfl
    rw [hstep, ih (k + 1) m ex]
    simp [FinalizerLoopState.mk.injEq]
    omega

/-- Claim C8: when DeleteRole fails on every attempt, the run still exits its
loop at the timeout having made no in-loop removal call, performs exactly one
finalizer-removal attempt (the unconditional one after the loop), and clears
the registry entry. -/
theorem claim_c8 (removeOk : Nat → Bool) (timeoutIters : Nat) :
    (runGCPRoleFinalizer false (fun _ => false) removeOk timeoutIters).registered = true ∧
    (runGCPRoleFinalizer false (fun _ => false) removeOk timeoutIters).unregistered = true ∧
    (runGCPRoleFinalizer false (fun _ => false) removeOk
      timeoutIters).totalRemoveCalls = 1 ∧
    (runGCPRoleFinalizer false (fun _ => false) removeOk timeoutIters).loopState =
      ⟨false, timeoutIters, 0, false⟩ := by
  have hl := finalizerLoop_deleteFail removeOk timeoutIters 0 0 false
  refine ⟨rfl, rfl, ?_, ?_⟩ <;> simp [runGCPRoleFinalizer, hl]

/-- Claim C9: removeGCPRoleFinalizer treats NotFound from the Get as success
(nil error, no patch), returns any other Get error without patching, and
otherwise submits a patch from which the finalizer token is gone, returning
the patch call's error. -/
theorem claim_c9 (m : GCPRole) (e : String) (patchErr : Option String) :
    removeGCPRoleFinalizer GetRoleResult.notFound patchErr =
      { returnedErr := none, submittedPatch := none } ∧
    removeGCPRoleFinalizer (GetRoleResult.errored e) patchErr =
      { returnedErr := some e, submittedPatch := none } ∧
    (∃ m', removeGCPRoleFinalizer (GetRoleResult.found m) patchErr =
        { returnedErr := patchErr, submittedPatch := some m' } ∧
      GCPRoleFinalizer ∉ m'.finalizers) := by
  refine ⟨rfl, rfl, removeFinalizerToken m GCPRoleFinalizer, rfl, ?_⟩
  simp [removeFinalizerToken, List.mem_filter]

end VaultOperator
